import Mathlib

/-!
# Verification of deepshell's command-execution core

Shallow embedding of the two core modules of the repository:

* `src/core/task_manager.py` — `TaskManager`, a single-worker FIFO queue that
  executes asynchronous units of work one at a time and resolves a per-task
  future with the result or the caught failure.
* `utils/shell_utils.py` — `CommandExecutor`, which confirms, spawns,
  streams, monitors and finalizes shell commands, handling a cached sudo
  credential.

Python strings are modelled as `List Char`; Python truthiness of an optional
string (`None` and `""` are falsy) is `truthy`.  Effectful collaborators
(the asyncio event loop, subprocess spawning, the user-interaction object)
are modelled by an explicit environment record supplying the outcome of each
suspension point, and the executor's mutable attributes are threaded as an
explicit state record.  An exception propagating out of a method is an
`Except.error`.
-/

/-- Python truthiness of an optional string: `None` and `""` are falsy. -/
def truthy : Option (List Char) → Bool
  | none => false
  | some s => s ≠ []

/-- Python `str.lower`, character by character. -/
def lowerL (l : List Char) : List Char := l.map Char.toLower

/-- Python whitespace characters, the set removed by `str.strip`. -/
def isPyWS (c : Char) : Bool :=
  c == ' ' || c == '\t' || c == '\n' || c == '\r' || c == '\x0b' || c == '\x0c'

/-- Python `str.lstrip()`. -/
def pyLstrip (l : List Char) : List Char := l.dropWhile isPyWS

/-- Python `str.strip()`: drop leading and trailing whitespace. -/
def pyStrip (l : List Char) : List Char :=
  ((l.dropWhile isPyWS).reverse.dropWhile isPyWS).reverse

/-! ## TaskManager (`src/core/task_manager.py`)

The worker loop dequeues `(coro_func, args, kwargs, future)` tuples in FIFO
order.  For each task it awaits the unit of work; in the embedding the
outcome of that await is given up front as an `Outcome`:

* `ok v`    — the coroutine returned `v`; the worker calls `future.set_result`.
* `err e`   — the coroutine raised an `Exception`; caught by the
  `except Exception` clause, the worker calls `future.set_exception`.
* `cancelled` — `stop()` cancelled the worker while this task's await was in
  flight.  `asyncio.CancelledError` derives from `BaseException`, so the
  `except Exception` clause does not catch it: it propagates through the
  `finally` block, the future of this task is never resolved, and every task
  still sitting in the queue is never dequeued, so its future is never
  resolved either.
-/

/-- The outcome of awaiting one unit of work inside the worker loop. -/
inductive Outcome (α : Type) where
  | ok (v : α)
  | err (e : String)
  | cancelled
deriving Repr, DecidableEq

/-- What a task's completion handle (future) ends up holding. -/
inductive Resolution (α : Type) where
  | result (v : α)
  | failure (e : String)
deriving Repr, DecidableEq

/-- How the worker loop resolves each queued task's future, in queue order:
`some r` means the future was resolved (exactly once) with `r`; `none` means
the future was never resolved.  A `cancelled` outcome aborts the loop, so
all later queued tasks are left unresolved. -/
def workerResolutions {α : Type} : List (Outcome α) → List (Option (Resolution α))
  | [] => []
  | .ok v :: rest => some (.result v) :: workerResolutions rest
  | .err e :: rest => some (.failure e) :: workerResolutions rest
  | .cancelled :: rest => none :: rest.map (fun _ => none)

/-- Number of times each task's future is resolved by the worker (the loop
calls `set_result`/`set_exception` at most once per dequeued task). -/
def resolveCounts {α : Type} (q : List (Outcome α)) : List Nat :=
  (workerResolutions q).map (fun r => if r.isSome then 1 else 0)

/-- The units of work actually awaited by the worker, in execution order:
the loop deques strictly in submission order and stops after a cancelled
await. -/
def workerTrace {α : Type} : List (Outcome α) → List (Outcome α)
  | [] => []
  | .cancelled :: _ => [.cancelled]
  | t :: rest => t :: workerTrace rest

/-- The resolution the worker gives a single non-cancelled outcome. -/
def resolveOf {α : Type} : Outcome α → Option (Resolution α)
  | .ok v => some (.result v)
  | .err e => some (.failure e)
  | .cancelled => none

/-! ## OutputSanitizer helpers (`utils/shell_utils.py`)

`_extract_meaningful_text` first deletes every match of the regex
`\x1b[^m]*m` (an ESC, any run of non-`m` characters, then an `m`; an ESC with
no later `m` is left in place), then deletes the control characters
`\x00`–`\x1f` and `\x7f`, strips, and returns the residue when non-empty. -/

/-- Scan for the first `m`; `some rest` is the input after that `m`,
`none` when no `m` occurs (the regex `\x1b[^m]*m` then has no match). -/
def dropToM : List Char → Option (List Char)
  | [] => none
  | c :: rest => if c = 'm' then some rest else dropToM rest

theorem dropToM_length {l r : List Char} (h : dropToM l = some r) :
    r.length < l.length := by
  induction l generalizing r with
  | nil => simp [dropToM] at h
  | cons c rest ih =>
    rw [dropToM] at h
    by_cases hc : c = 'm'
    · rw [if_pos hc] at h
      injection h with h
      subst h
      simp only [List.length_cons]
      omega
    · rw [if_neg hc] at h
      have := ih h
      simp only [List.length_cons]
      omega

/-- Delete every match of `\x1b[^m]*m` (Python `re.sub`, leftmost
non-overlapping matches). -/
def removeAnsi : List Char → List Char
  | [] => []
  | c :: rest =>
    if c = '\x1b' then
      match h : dropToM rest with
      | some rest2 => removeAnsi rest2
      | none => c :: removeAnsi rest
    else c :: removeAnsi rest
termination_by l => l.length
decreasing_by
  · have := dropToM_length h
    simp only [List.length_cons]
    omega
  · simp only [List.length_cons]
    omega
  · simp only [List.length_cons]
    omega

/-- Delete the control characters `[\x00-\x1F\x7F]` (Python `re.sub`). -/
def removeCtrl (l : List Char) : List Char :=
  l.filter (fun c => !(decide (c.toNat ≤ 31) || decide (c.toNat = 127)))

/-- `CommandExecutor._extract_meaningful_text`: strip ANSI sequences and
control characters, then strip whitespace; `none` when nothing is left. -/
def extractMeaningfulText (data : List Char) : Option (List Char) :=
  let cleaned := removeCtrl (removeAnsi data)
  if (pyStrip cleaned).length > 0 then some (pyStrip cleaned) else none

/-! ## PromptDetector (`_should_handle_prompt` / `_handle_prompt`) -/

/-- The fixed prompt keywords matched case-insensitively by
`_should_handle_prompt`. -/
def promptKeywords : List (List Char) :=
  ["[y/n]".toList, "(yes/no)".toList, "(y/n)".toList,
   "password:".toList, "continue?".toList]

/-- `CommandExecutor._should_handle_prompt`. -/
def shouldHandlePrompt (decoded : List Char) : Bool :=
  promptKeywords.any (fun kw => decide (kw <:+: lowerL decoded))

/-! ## Python `bytes.decode(...).splitlines()` -/

/-- Split off the first line: content up to the first line terminator
(`\r\n`, `\r` or `\n`) and the remainder after it. -/
def breakLine : List Char → List Char × List Char
  | [] => ([], [])
  | c :: rest =>
    if c = '\r' then
      match rest with
      | c2 :: rest2 => if c2 = '\n' then ([], rest2) else ([], rest)
      | [] => ([], rest)
    else if c = '\n' then ([], rest)
    else
      let p := breakLine rest
      (c :: p.1, p.2)

theorem breakLine_length {l : List Char} (h : l ≠ []) :
    (breakLine l).2.length < l.length := by
  induction l with
  | nil => simp at h
  | cons c rest ih =>
    rw [breakLine.eq_def]
    simp only
    by_cases hr : c = '\r'
    · rw [if_pos hr]
      match rest with
      | [] => simp
      | c2 :: rest2 =>
        simp only
        by_cases h2 : c2 = '\n'
        · rw [if_pos h2]
          simp only [List.length_cons]
          omega
        · rw [if_neg h2]
          simp only [List.length_cons]
          omega
    · rw [if_neg hr]
      by_cases hn : c = '\n'
      · rw [if_pos hn]
        simp only [List.length_cons]
        omega
      · rw [if_neg hn]
        rcases Decidable.em (rest = []) with he | he
        · subst he
          simp [breakLine]
        · have := ih he
          simp only [List.length_cons]
          omega

/-- Python `str.splitlines()`. -/
def pySplitlines : List Char → List (List Char)
  | [] => []
  | c :: rest =>
    let p := breakLine (c :: rest)
    p.1 :: pySplitlines p.2
termination_by l => l.length
decreasing_by
  exact breakLine_length (by simp)

/-! ## CommandExecutor state and environment

`CommandExecutor`'s mutable attributes (`history`, `ui`, `sudo_password`;
the configuration constants `MONITOR_INTERVAL`, `MAX_OUTPUT_LINES`,
`OUTPUT_VALIDATION` imported from `config.settings` are opaque values here)
form `ExecutorState`.  The outcome of every suspension point of one
`execute_command` run is supplied by an `ExecEnv`:

* `userPwdInput` — what `_get_user_input("Enter sudo password: ")` returns;
* `probeResult`  — the outcome of the `echo pwd | sudo -S -v` validation
  probe: `.error e` when spawning/communicating with the probe raises,
  `.ok b` with `b = (returncode == 0)` otherwise;
* `spawnResult`  — the outcome of `asyncio.create_subprocess_shell`:
  `.error e` when it raises, `.ok (some ())` a live process.
  `.ok none` models the hypothetical `None` return checked by
  `execute_command`'s `if proc is None` guard;
* `readEvents`   — the script of the `proc.stdout.readline()` loop;
* `promptInput`  — what `_get_user_input("Enter password: ")` inside
  `_handle_prompt` returns;
* `remOut`, `remErr`, `exitCode` — what the final `proc.communicate()`
  drains (already decoded) and the process's `returncode`;
* `confirmInput` — the edited command the user-interaction collaborator
  returns from `confirm_execute_command`'s editable field.
-/

/-- One `CommandRecord` appended to `history`. -/
structure CommandRecord where
  command : List Char
  output : List Char
  error : List Char
deriving Repr, DecidableEq

/-- The user-interface collaborator's state: its cached `pswd` attribute. -/
structure UIState where
  pswd : Option (List Char)
deriving Repr, DecidableEq

/-- The executor's mutable attributes. -/
structure ExecutorState where
  history : List CommandRecord
  ui : Option UIState
  sudo_password : Option (List Char)
  max_output_lines : Nat
deriving Repr, DecidableEq

/-- `CommandExecutor.__init__`: empty history, no credential unless the UI
collaborator already caches one (`if self.ui: self.sudo_password =
self.ui.pswd`).  `maxLines` stands for the imported `MAX_OUTPUT_LINES`. -/
def initExecutor (ui : Option UIState) (maxLines : Nat) : ExecutorState :=
  { history := []
    ui := ui
    sudo_password := match ui with
      | some u => u.pswd
      | none => none
    max_output_lines := maxLines }

/-- One event of the `proc.stdout.readline()` loop. -/
inductive ReadEvent where
  | line (s : List Char)
  | eof
  | cancel
  | exn (msg : String)
deriving Repr, DecidableEq

/-- How the reading loop of `_process_command_output` exited. -/
inductive LoopExit where
  | normal
  | cancelled
  | raised (msg : String)
deriving Repr, DecidableEq

/-- Environment: outcome of every suspension point of one run. -/
structure ExecEnv where
  userPwdInput : List Char
  probeResult : Except String Bool
  spawnResult : Except String (Option Unit)
  readEvents : List ReadEvent
  promptInput : List Char
  remOut : List Char
  remErr : List Char
  exitCode : Int
  confirmInput : List Char
deriving Repr

/-- Is there an unexpected in-loop exception in the read script? -/
def hasExn : List ReadEvent → Bool
  | [] => false
  | .exn _ :: _ => true
  | _ :: rest => hasExn rest

/-- Messages and markers fixed in the source. -/
def noOutputMsg : List Char :=
  "No output received. Command may require user interaction or is piped.".toList

/-- The truncation marker line appended by `_finalize_command_output`. -/
def truncMarker : List Char := "[Output truncated]".toList

/-- `CommandExecutor._clear_sudo_password`: overwrite the credential with
random data, then drop the reference.  Only `self.sudo_password` is
assigned; `history` and the UI collaborator are untouched.  The transient
random overwrite leaves no observable trace, so the net effect is `none`. -/
def clearSudoPassword (st : ExecutorState) : ExecutorState :=
  { st with sudo_password := none }

/-- `CommandExecutor._validate_sudo_password`'s probe command:
`f"echo {sudo_password} | sudo -S -v"`. -/
def validateProbeCommand (pwd : List Char) : List Char :=
  "echo ".toList ++ pwd ++ " | sudo -S -v".toList

/-- The rewritten command of `execute_command`'s sudo branch:
`f"echo {self.sudo_password} | sudo -S {command[5:]}"`. -/
def sudoRewrite (pwd command : List Char) : List Char :=
  "echo ".toList ++ pwd ++ " | sudo -S ".toList ++ command.drop 5

/-- `CommandExecutor._get_sudo_password`, prompt branch (the `else` of
`if self.ui and hasattr(self.ui, 'pswd') and self.ui.pswd`): read a masked
password, store it, and when non-empty validate it with the probe; on
success also hand it to `ui.pswd`, on failure null both.  Returns
`(.error e, st)` when the probe raises, otherwise `(.ok prompted, st)`
with `prompted = true` (the user was asked). -/
def getSudoPasswordPrompt (env : ExecEnv) (st : ExecutorState) :
    Except String Bool × ExecutorState :=
  let input := env.userPwdInput
  let st1 := { st with sudo_password := some input }
  if input = [] then (.ok true, st1)
  else
    match env.probeResult with
    | .error e => (.error e, st1)
    | .ok true =>
      (.ok true, { st1 with ui := st1.ui.map (fun u => { u with pswd := some input }) })
    | .ok false =>
      (.ok true,
        { st1 with sudo_password := none
                   ui := st1.ui.map (fun u => { u with pswd := none }) })

/-- `CommandExecutor._get_sudo_password`: reuse a truthy `ui.pswd` without
prompting, otherwise fall through to the prompt branch.  The `Bool` reports
whether the user was prompted. -/
def getSudoPassword (env : ExecEnv) (st : ExecutorState) :
    Except String Bool × ExecutorState :=
  match st.ui with
  | some u =>
    if truthy u.pswd then (.ok false, { st with sudo_password := u.pswd })
    else getSudoPasswordPrompt env st
  | none => getSudoPasswordPrompt env st

/-- `CommandExecutor._handle_prompt`'s synthetic answer for one detected
prompt line: the cached credential (or a freshly prompted one) for a
`password:` line, the literal `yes` otherwise. -/
def promptResponse (st : ExecutorState) (promptInput : List Char)
    (decoded : List Char) : List Char :=
  if "password:".toList <:+: lowerL decoded then
    if truthy st.sudo_password then st.sudo_password.getD [] else promptInput
  else "yes".toList

/-- The reading loop of `_process_command_output`: per `line` event, strip
the decoded line, accumulate its meaningful text, and answer a detected
prompt on stdin; `eof` ends the loop normally (`readline` returned `b""`),
`cancel` is an `asyncio.CancelledError` delivered at the `readline` await,
`exn` an unexpected exception raised inside the loop.  Returns the
accumulated output lines, the stdin writes, and how the loop exited. -/
def readLoop (st : ExecutorState) (promptInput : List Char) :
    List ReadEvent → List (List Char) × List (List Char) × LoopExit
  | [] => ([], [], .normal)
  | .eof :: _ => ([], [], .normal)
  | .cancel :: _ => ([], [], .cancelled)
  | .exn m :: _ => ([], [], .raised m)
  | .line s :: rest =>
    let decoded := pyStrip s
    let accHead := match extractMeaningfulText decoded with
      | some t => [t]
      | none => []
    let writeHead := if shouldHandlePrompt decoded then
        [promptResponse st promptInput decoded] else []
    let r := readLoop st promptInput rest
    (accHead ++ r.1, writeHead ++ r.2.1, r.2.2)

/-! ## Finalization and the output-processing pipeline -/

/-- The line list at `_finalize_command_output`'s truncation point: the
collected loop lines, extended with the lines of the drained residual
stdout when that decodes and strips to something non-empty. -/
def combinedLines (output_lines : List (List Char)) (output : List Char) :
    List (List Char) :=
  let additional := if output ≠ [] then pyStrip output else []
  if additional ≠ [] then output_lines ++ pySplitlines additional else output_lines

/-- The stripped stderr string of `_finalize_command_output`. -/
def errorStrOf (error : List Char) : List Char :=
  if error ≠ [] then pyStrip error else []

/-- `CommandExecutor._finalize_command_output`: extend with residual stdout,
substitute the no-output message for an empty list, truncate to
`max_output_lines` plus the marker, join with newlines, append the
`CommandRecord`, clear the credential, and return the joined output on exit
code zero or `"Error: " + stderr` otherwise. -/
def finalizeCommandOutput (st : ExecutorState) (command : List Char)
    (output_lines : List (List Char)) (output error : List Char)
    (returncode : Int) : List Char × ExecutorState :=
  let lines1 := combinedLines output_lines output
  let error_str := errorStrOf error
  let lines2 := if lines1 = [] then [noOutputMsg] else lines1
  let lines3 := if lines2.length > st.max_output_lines then
      lines2.take st.max_output_lines ++ [truncMarker] else lines2
  let output_str := List.intercalate "\n".toList lines3
  let st1 := clearSudoPassword
    { st with history := st.history ++ [⟨command, output_str, error_str⟩] }
  (if returncode = 0 then output_str else "Error: ".toList ++ error_str, st1)

/-- The observables of `_process_command_output`: the returned string or the
propagated exception, whether `proc.terminate()` was called, whether the
process's exit was awaited (`proc.wait()` or `proc.communicate()`), whether
the monitor task was cancelled, and the synthetic answers written to the
process's stdin. -/
structure ProcOutcome where
  result : Except String (List Char)
  termCalled : Bool
  procWaited : Bool
  monitorCancelled : Bool
  stdinWrites : List (List Char)
deriving Repr

/-- `CommandExecutor._process_command_output`: run the reading loop; on
`CancelledError` terminate the process, await it and return the partial
output joined by newlines (no finalization); on an unexpected in-loop
exception only the `finally` block runs (cancelling the monitor) and the
exception propagates with the process still running; on normal stream end
substitute the no-output message if nothing accumulated, drain the process
via `communicate()` (which awaits its exit) and finalize. -/
def processCommandOutput (env : ExecEnv) (st : ExecutorState)
    (command : List Char) : ProcOutcome × ExecutorState :=
  let r := readLoop st env.promptInput env.readEvents
  match r.2.2 with
  | .cancelled =>
    ({ result := .ok (List.intercalate "\n".toList r.1)
       termCalled := true
       procWaited := true
       monitorCancelled := true
       stdinWrites := r.2.1 }, st)
  | .raised m =>
    ({ result := .error m
       termCalled := false
       procWaited := false
       monitorCancelled := true
       stdinWrites := r.2.1 }, st)
  | .normal =>
    let acc := if r.1 = [] then [noOutputMsg] else r.1
    let fin := finalizeCommandOutput st command acc env.remOut env.remErr env.exitCode
    ({ result := .ok fin.1
       termCalled := false
       procWaited := true
       monitorCancelled := true
       stdinWrites := r.2.1 }, fin.2)

/-- The observables of one `execute_command` call.  `result` is the value
returned to the caller: `.ok (some s)` a string, `.ok none` the `None`
sentinel of a declined/failed sudo credential, `.error e` an exception
propagating out of the method.  `spawnedCommand` is the command string
handed to `create_subprocess_shell`, when the spawn call was reached. -/
structure ExecResult where
  result : Except String (Option (List Char))
  spawnedCommand : Option (List Char)
  termCalled : Bool
  procWaited : Bool
  stdinWrites : List (List Char)
deriving Repr

/-- The tail of `execute_command` from `proc = await self._start_subprocess`
on: `_start_subprocess` itself is just `create_subprocess_shell`, so a spawn
exception propagates uncaught; a `None` process (which the asyncio API never
actually produces) would return the fixed error string; otherwise the output
is processed. -/
def spawnAndProcess (env : ExecEnv) (st : ExecutorState) (command : List Char) :
    ExecResult × ExecutorState :=
  match env.spawnResult with
  | .error e =>
    ({ result := .error e
       spawnedCommand := some command
       termCalled := false
       procWaited := false
       stdinWrites := [] }, st)
  | .ok none =>
    ({ result := .ok (some ("Error: Command did not produce valid output or is not interactive.".toList))
       spawnedCommand := some command
       termCalled := false
       procWaited := false
       stdinWrites := [] }, st)
  | .ok (some _) =>
    let po := processCommandOutput env st command
    ({ result := po.1.result.map some
       spawnedCommand := some command
       termCalled := po.1.termCalled
       procWaited := po.1.procWaited
       stdinWrites := po.1.stdinWrites }, po.2)

/-- `CommandExecutor.execute_command`: an empty command returns a fixed
string; a `sudo`-prefixed command first ensures a truthy cached credential
(prompting and validating if needed; `None` is returned when it stays
falsy), then rewrites the command to pipe the credential into `sudo -S`;
finally the (possibly rewritten) command is spawned and processed. -/
def executeCommand (env : ExecEnv) (st : ExecutorState) (command : List Char) :
    ExecResult × ExecutorState :=
  if command = [] then
    ({ result := .ok (some ("No command provided.".toList))
       spawnedCommand := none
       termCalled := false
       procWaited := false
       stdinWrites := [] }, st)
  else if "sudo".toList <+: command then
    let g := if ¬ truthy st.sudo_password then getSudoPassword env st
             else (.ok false, st)
    match g.1 with
    | .error e =>
      ({ result := .error e
         spawnedCommand := none
         termCalled := false
         procWaited := false
         stdinWrites := [] }, g.2)
    | .ok _ =>
      if ¬ truthy g.2.sudo_password then
        ({ result := .ok none
           spawnedCommand := none
           termCalled := false
           procWaited := false
           stdinWrites := [] }, g.2)
      else
        spawnAndProcess env g.2 (sudoRewrite (g.2.sudo_password.getD []) command)
  else
    spawnAndProcess env st command

/-- `CommandExecutor.confirm_execute_command`: present the command
(left-stripped) in an editable field; the collaborator's returned edit is
accepted verbatim when non-empty, an empty edit cancels.  The prefilled
text only seeds the field; `env.confirmInput` is what the human leaves. -/
def confirmExecuteCommand (env : ExecEnv) (command : List Char) :
    Option (List Char) :=
  let _prefill := pyLstrip command
  let edited := env.confirmInput
  if edited = [] then none else some edited

/-- `CommandExecutor.start`: no/empty command returns
`(None, "No command specified.")`; a declined confirmation returns
`(None, None)` without executing; otherwise the confirmed command is
executed and `(confirmed_command, output)` returned (an exception from
`execute_command` propagates). -/
def startExecutor (env : ExecEnv) (st : ExecutorState)
    (command : Option (List Char)) :
    Except String (Option (List Char) × Option (List Char)) × ExecutorState :=
  match command with
  | none => (.ok (none, some ("No command specified.".toList)), st)
  | some c =>
    if c = [] then (.ok (none, some ("No command specified.".toList)), st)
    else
      match confirmExecuteCommand env c with
      | some cc =>
        let e := executeCommand env st cc
        match e.1.result with
        | .error m => (.error m, e.2)
        | .ok out => (.ok (some cc, out), e.2)
      | none => (.ok (none, none), st)

/-! ## Shared concrete environment for witnesses and counterexamples -/

/-- A baseline environment: successful spawn, no read events, empty drains,
exit code 0, empty user inputs, failing probe. -/
def envBase : ExecEnv :=
  { userPwdInput := []
    probeResult := .ok false
    spawnResult := .ok (some ())
    readEvents := []
    promptInput := []
    remOut := []
    remErr := []
    exitCode := 0
    confirmInput := [] }

/-- Boolean test for a non-exceptional `Except` value. -/
def exceptOk {ε α : Type} : Except ε α → Bool
  | .ok _ => true
  | .error _ => false

/-! ## Helper lemmas -/

theorem workerResolutions_eq_map {α : Type} {q : List (Outcome α)}
    (h : Outcome.cancelled ∉ q) : workerResolutions q = q.map resolveOf := by
  induction q with
  | nil => rfl
  | cons t rest ih =>
    cases t with
    | ok v =>
      have := ih (List.not_mem_of_not_mem_cons h)
      simp [workerResolutions, resolveOf, this]
    | err e =>
      have := ih (List.not_mem_of_not_mem_cons h)
      simp [workerResolutions, resolveOf, this]
    | cancelled => exact absurd (List.mem_cons_self _ _) h

theorem workerTrace_eq {α : Type} {q : List (Outcome α)}
    (h : Outcome.cancelled ∉ q) : workerTrace q = q := by
  induction q with
  | nil => rfl
  | cons t rest ih =>
    cases t with
    | ok v =>
      have := ih (List.not_mem_of_not_mem_cons h)
      simp [workerTrace, this]
    | err e =>
      have := ih (List.not_mem_of_not_mem_cons h)
      simp [workerTrace, this]
    | cancelled => exact absurd (List.mem_cons_self _ _) h

/-! ## Claims about the TaskManager -/

/-- C2 counterexample: the claim says every enqueued task's future is
resolved exactly once "including when stop() cancels the worker while tasks
are queued or in flight".  With two queued tasks and `stop()` cancelling the
worker during the second task's await, the second future is never resolved:
`CancelledError` is not an `Exception`, so the worker's handler does not
catch it and no resolution happens. -/
theorem c2_counterexample :
    ¬ (∀ r ∈ workerResolutions [Outcome.ok (1 : Nat), Outcome.cancelled],
        r.isSome = true) := by
  decide

/-- C2 (amended): every queued task's future is resolved at most once, and
when the worker is never cancelled it is resolved exactly once per task —
but a `stop()` cancellation arriving during a task's await leaves that
task's future (and every still-queued task's future) unresolved. -/
theorem c2_resolution_discipline {α : Type} (q : List (Outcome α)) :
    (∀ c ∈ resolveCounts q, c ≤ 1) ∧
    (Outcome.cancelled ∉ q →
      (∀ c ∈ resolveCounts q, c = 1) ∧ (resolveCounts q).length = q.length) := by
  constructor
  · intro c hc
    rw [resolveCounts] at hc
    obtain ⟨r, _, hr⟩ := List.mem_map.mp hc
    subst hr
    by_cases h : r.isSome <;> simp [h]
  · intro h
    constructor
    · intro c hc
      rw [resolveCounts, workerResolutions_eq_map h] at hc
      obtain ⟨r, hrm, hr⟩ := List.mem_map.mp hc
      subst hr
      obtain ⟨o, hoq, ho⟩ := List.mem_map.mp hrm
      subst ho
      cases o with
      | ok v => simp [resolveOf]
      | err e => simp [resolveOf]
      | cancelled => exact absurd hoq h
    · rw [resolveCounts, workerResolutions_eq_map h]
      simp

/-- C2 witness: on a concrete cancellation-free queue the resolution counts
are all exactly one. -/
theorem c2_witness :
    ∀ c ∈ resolveCounts [Outcome.ok (2 : Nat), Outcome.err "boom"], c = 1 :=
  ((c2_resolution_discipline [Outcome.ok (2 : Nat), Outcome.err "boom"]).2
    (by decide)).1

/-- C4: for a queue of N units of work none of which is interrupted by a
worker cancellation, the worker executes them one at a time in exact
submission order (`workerTrace q = q`), resolves every completion handle
(`workerResolutions q = q.map resolveOf`, all entries `some`), and a raising
k-th unit of work delivers a failure to exactly the k-th handle while every
returning unit delivers its result to its own handle. -/
theorem c4_fifo_failure_isolation {α : Type} (q : List (Outcome α))
    (h : Outcome.cancelled ∉ q) :
    workerTrace q = q ∧
    workerResolutions q = q.map resolveOf ∧
    (workerResolutions q).length = q.length ∧
    (∀ (k : Nat) (e : String), q[k]? = some (Outcome.err e) →
      (workerResolutions q)[k]? = some (some (Resolution.failure e))) ∧
    (∀ (k : Nat) (v : α), q[k]? = some (Outcome.ok v) →
      (workerResolutions q)[k]? = some (some (Resolution.result v))) := by
  refine ⟨workerTrace_eq h, workerResolutions_eq_map h, ?_, ?_, ?_⟩
  · rw [workerResolutions_eq_map h]
    simp
  · intro k e hk
    rw [workerResolutions_eq_map h, List.getElem?_map, hk]
    rfl
  · intro k v hk
    rw [workerResolutions_eq_map h, List.getElem?_map, hk]
    rfl

/-- C4 witness: the spec's own example — three units `A→1`, `B→raises`,
`C→3` — executes in order and resolves `A` and `C` normally with only `B`'s
handle receiving the failure. -/
theorem c4_witness :
    workerTrace [Outcome.ok (1 : Nat), Outcome.err "boom", Outcome.ok 3] =
      [Outcome.ok (1 : Nat), Outcome.err "boom", Outcome.ok 3] ∧
    workerResolutions [Outcome.ok (1 : Nat), Outcome.err "boom", Outcome.ok 3] =
      [some (Resolution.result 1), some (Resolution.failure "boom"),
        some (Resolution.result 3)] := by
  have h := c4_fifo_failure_isolation
    [Outcome.ok (1 : Nat), Outcome.err "boom", Outcome.ok 3] (by decide)
  exact ⟨h.1, by rw [h.2.1]; rfl⟩

theorem readLoop_exit_no_exn {evs : List ReadEvent} (h : hasExn evs = false)
    (st : ExecutorState) (p : List Char) :
    (readLoop st p evs).2.2 = .normal ∨ (readLoop st p evs).2.2 = .cancelled := by
  induction evs with
  | nil => left; rfl
  | cons e rest ih =>
    cases e with
    | line s =>
      have h2 : hasExn rest = false := by simpa [hasExn] using h
      simpa [readLoop] using ih h2
    | eof => left; rfl
    | cancel => right; rfl
    | exn m => simp [hasExn] at h

theorem processCommandOutput_ok (env : ExecEnv) (st : ExecutorState)
    (c : List Char) (h : hasExn env.readEvents = false) :
    exceptOk (processCommandOutput env st c).1.result = true := by
  rcases readLoop_exit_no_exn h st env.promptInput with he | he <;>
    simp [processCommandOutput, he, exceptOk]

theorem spawnAndProcess_ok (env : ExecEnv) (st : ExecutorState) (c : List Char)
    (hspawn : exceptOk env.spawnResult = true)
    (h : hasExn env.readEvents = false) :
    exceptOk (spawnAndProcess env st c).1.result = true := by
  rcases hs : env.spawnResult with e | o
  · rw [hs] at hspawn
    simp [exceptOk] at hspawn
  · rcases o with _ | u
    · simp [spawnAndProcess, hs, exceptOk]
    · have hp := processCommandOutput_ok env st c h
      rcases hq : (processCommandOutput env st c).1.result with m | s
      · rw [hq] at hp
        simp [exceptOk] at hp
      · simp [spawnAndProcess, hs, hq, exceptOk, Except.map]

theorem getSudoPasswordPrompt_ok (env : ExecEnv) (st : ExecutorState)
    (hprobe : exceptOk env.probeResult = true) :
    exceptOk (getSudoPasswordPrompt env st).1 = true := by
  unfold getSudoPasswordPrompt
  by_cases hi : env.userPwdInput = []
  · simp [hi, exceptOk]
  · rcases hp : env.probeResult with e | b
    · rw [hp] at hprobe
      simp [exceptOk] at hprobe
    · cases b <;> simp [hi, hp, exceptOk]

theorem getSudoPassword_ok (env : ExecEnv) (st : ExecutorState)
    (hprobe : exceptOk env.probeResult = true) :
    exceptOk (getSudoPassword env st).1 = true := by
  unfold getSudoPassword
  rcases st.ui with _ | u
  · exact getSudoPasswordPrompt_ok env st hprobe
  · by_cases ht : truthy u.pswd
    · simp [ht, exceptOk]
    · simpa [ht] using getSudoPasswordPrompt_ok env st hprobe

theorem spawnAndProcess_spawnedCommand (env : ExecEnv) (st : ExecutorState)
    (c : List Char) :
    (spawnAndProcess env st c).1.spawnedCommand = some c := by
  rcases hs : env.spawnResult with e | o
  · simp [spawnAndProcess, hs]
  · rcases o with _ | u <;> simp [spawnAndProcess, hs]

/-! ## Claims about the CommandExecutor -/

/-- C1 counterexample: the claim says `execute_command` catches every
failure category, spawn failure included, and never propagates an exception
outward.  But `_start_subprocess` is a bare `create_subprocess_shell` call:
when process creation raises (e.g. an `OSError`), nothing catches it and
the exception propagates to `execute_command`'s caller — the
`if proc is None` guard never fires because the asyncio API raises instead
of returning `None`. -/
theorem c1_counterexample :
    (executeCommand { envBase with spawnResult := .error "OSError: fork failed" }
        (initExecutor none 500) "ls".toList).1.result =
      .error "OSError: fork failed" := rfl

/-- C1 (amended): provided process creation does not itself raise (for the
main command and for the credential-validation probe) and no unexpected
exception is raised inside the output-reading loop, `execute_command`
converts every failure category — validation failure, non-zero exit,
cancellation, empty output — into a returned string or the `None` sentinel
and never propagates an exception. -/
theorem c1_no_exception_outward (env : ExecEnv) (st : ExecutorState)
    (c : List Char)
    (hspawn : exceptOk env.spawnResult = true)
    (hprobe : exceptOk env.probeResult = true)
    (hloop : hasExn env.readEvents = false) :
    exceptOk (executeCommand env st c).1.result = true := by
  unfold executeCommand
  by_cases hc : c = []
  · simp [hc, exceptOk]
  · simp only [if_neg hc]
    by_cases hs : "sudo".toList <+: c
    · simp only [if_pos hs]
      by_cases ht : truthy st.sudo_password
      · simp only [ht, not_true, Bool.not_true, Bool.false_eq_true, if_false]
        exact spawnAndProcess_ok env st _ hspawn hloop
      · simp only [ht, not_false_iff, Bool.not_false, if_true, Bool.false_eq_true]
        have hg := getSudoPassword_ok env st hprobe
        rcases hq : (getSudoPassword env st).1 with e | b
        · rw [hq] at hg
          simp [exceptOk] at hg
        · simp only [hq]
          by_cases ht2 : truthy (getSudoPassword env st).2.sudo_password
          · simp only [ht2, not_true, Bool.not_true, Bool.false_eq_true, if_false]
            exact spawnAndProcess_ok env _ _ hspawn hloop
          · simp only [ht2, not_false_iff, Bool.not_false, Bool.false_eq_true,
              if_true]
            rfl
    · simp only [if_neg hs]
      exact spawnAndProcess_ok env st c hspawn hloop

/-- C1 witness: a concrete healthy environment returns a value. -/
theorem c1_witness :
    exceptOk (executeCommand envBase (initExecutor none 500)
      "ls".toList).1.result = true :=
  c1_no_exception_outward envBase (initExecutor none 500) "ls".toList rfl rfl rfl

theorem intercalate_single (sep x : List Char) :
    List.intercalate sep [x] = x := by
  simp [List.intercalate, List.intersperse]

/-- C5 counterexample: the claim says the subprocess is terminated and its
exit awaited on every exit path of the output-processing loop, including
"any unexpected exception raised inside the loop".  But the loop's `except`
clause only handles `asyncio.CancelledError` and its `finally` only cancels
the monitor task: with a script raising an unexpected `ValueError` inside
the loop, the exception propagates while the process was neither terminated
nor awaited — it is left running. -/
theorem c5_counterexample :
    (processCommandOutput { envBase with readEvents := [ReadEvent.exn "ValueError"] }
        (initExecutor none 500) "ls".toList).1.result = .error "ValueError" ∧
    (processCommandOutput { envBase with readEvents := [ReadEvent.exn "ValueError"] }
        (initExecutor none 500) "ls".toList).1.procWaited = false ∧
    (processCommandOutput { envBase with readEvents := [ReadEvent.exn "ValueError"] }
        (initExecutor none 500) "ls".toList).1.termCalled = false :=
  ⟨rfl, rfl, rfl⟩

/-- C5 (amended): on the two handled exit paths of the output-processing
loop — normal stream end and cooperative cancellation, i.e. whenever no
unexpected exception is raised inside the loop — the subprocess's exit is
awaited before the method returns (`communicate()` on the normal path,
`terminate()` followed by `wait()` on the cancellation path); an unexpected
in-loop exception, however, propagates with the process still running. -/
theorem c5_cleanup_on_exit (env : ExecEnv) (st : ExecutorState) (c : List Char)
    (h : hasExn env.readEvents = false) :
    (processCommandOutput env st c).1.procWaited = true ∧
    ((readLoop st env.promptInput env.readEvents).2.2 = .cancelled →
      (processCommandOutput env st c).1.termCalled = true) := by
  rcases readLoop_exit_no_exn h st env.promptInput with he | he
  · refine ⟨by simp [processCommandOutput, he], ?_⟩
    intro hcanc
    rw [he] at hcanc
    cases hcanc
  · exact ⟨by simp [processCommandOutput, he],
      fun _ => by simp [processCommandOutput, he]⟩

/-- C5 witness: a concrete cancelled run awaits the process exit. -/
theorem c5_witness :
    (processCommandOutput { envBase with readEvents := [ReadEvent.cancel] }
        (initExecutor none 500) "ls".toList).1.procWaited = true :=
  (c5_cleanup_on_exit { envBase with readEvents := [ReadEvent.cancel] }
    (initExecutor none 500) "ls".toList rfl).1

/-- C9: when the output-reading loop is cancelled, `_process_command_output`
returns exactly the partial output accumulated so far joined by newlines,
and the executor state is completely unchanged: no `CommandRecord` is
appended to `history` and the cached `sudo_password` field is neither
overwritten nor cleared — those steps live in `_finalize_command_output`,
which runs only on the normal path. -/
theorem c9_cancel_partial_frame (env : ExecEnv) (st : ExecutorState)
    (c : List Char)
    (hexit : (readLoop st env.promptInput env.readEvents).2.2 = .cancelled) :
    (processCommandOutput env st c).1.result =
      .ok (List.intercalate "\n".toList
        (readLoop st env.promptInput env.readEvents).1) ∧
    (processCommandOutput env st c).2 = st := by
  constructor <;> simp [processCommandOutput, hexit]

/-- C9 witness: a cancelled run leaves a state with history and a cached
credential untouched. -/
theorem c9_witness :
    (processCommandOutput { envBase with readEvents := [ReadEvent.cancel] }
        { history := [⟨"old".toList, "out".toList, []⟩], ui := none,
          sudo_password := some "pw".toList, max_output_lines := 500 }
        "ls".toList).2 =
      { history := [⟨"old".toList, "out".toList, []⟩], ui := none,
        sudo_password := some "pw".toList, max_output_lines := 500 } :=
  (c9_cancel_partial_frame { envBase with readEvents := [ReadEvent.cancel] }
    { history := [⟨"old".toList, "out".toList, []⟩], ui := none,
      sudo_password := some "pw".toList, max_output_lines := 500 }
    "ls".toList rfl).2

/-- C7: a command producing zero stdout lines (no loop lines accumulated and
an empty residual drain) that exits with code 0 makes `execute_command`
return the fixed `No output received. Command may require user interaction
or is piped.` sentinel — never the empty string.  `0 < max_output_lines`
reflects any sensible configured `MAX_OUTPUT_LINES` (with a zero limit the
sentinel itself would be truncated to the marker line). -/
theorem c7_empty_output_sentinel (env : ExecEnv) (st : ExecutorState)
    (c : List Char) (hc : c ≠ []) (hns : ¬ "sudo".toList <+: c)
    (hspawn : env.spawnResult = .ok (some ()))
    (hacc : (readLoop st env.promptInput env.readEvents).1 = [])
    (hexit : (readLoop st env.promptInput env.readEvents).2.2 = .normal)
    (hrem : env.remOut = [])
    (hrc : env.exitCode = 0)
    (hmax : 0 < st.max_output_lines) :
    (executeCommand env st c).1.result = .ok (some noOutputMsg) ∧
    noOutputMsg ≠ [] := by
  refine ⟨?_, by decide⟩
  unfold executeCommand
  simp only [if_neg hc, if_neg hns]
  unfold spawnAndProcess
  simp only [hspawn]
  unfold processCommandOutput
  simp only [hexit, hacc]
  simp only [if_true]
  have h1 : ¬ ([noOutputMsg].length > st.max_output_lines) := by
    simp only [List.length_cons, List.length_nil]
    omega
  simp only [finalizeCommandOutput, combinedLines, errorStrOf, hrem, hrc,
    ne_eq, not_true_eq_false, if_false, h1]
  simp only [ite_self, if_true, h1, if_false, intercalate_single]
  rfl

/-- C7 witness: a concrete silent successful command yields the sentinel. -/
theorem c7_witness :
    (executeCommand { envBase with readEvents := [ReadEvent.eof] }
        (initExecutor none 500) "true".toList).1.result =
      .ok (some noOutputMsg) :=
  (c7_empty_output_sentinel { envBase with readEvents := [ReadEvent.eof] }
    (initExecutor none 500) "true".toList (by decide) (by decide) rfl rfl rfl
    rfl rfl (by decide)).1

/-- C6: whenever the line list at the truncation point of
`_finalize_command_output` (collected loop lines plus residual-drain lines)
exceeds the configured `max_output_lines`, the finalized output recorded in
history is exactly the earliest `max_output_lines` lines followed by exactly
one `[Output truncated]` marker line — `max_output_lines + 1` lines in
total, the kept lines a prefix of the original list, so the start of the
output is never discarded. -/
theorem c6_truncation (st : ExecutorState) (command : List Char)
    (output_lines : List (List Char)) (output error : List Char) (rc : Int)
    (h : (combinedLines output_lines output).length > st.max_output_lines) :
    (finalizeCommandOutput st command output_lines output error rc).2.history =
      st.history ++ [⟨command,
        List.intercalate "\n".toList
          ((combinedLines output_lines output).take st.max_output_lines ++
            [truncMarker]),
        errorStrOf error⟩] ∧
    ((combinedLines output_lines output).take st.max_output_lines ++
      [truncMarker]).length = st.max_output_lines + 1 ∧
    (combinedLines output_lines output).take st.max_output_lines <+:
      combinedLines output_lines output := by
  have hne : combinedLines output_lines output ≠ [] := by
    intro hh
    rw [hh] at h
    simp at h
  refine ⟨?_, ?_, List.take_prefix _ _⟩
  · simp only [finalizeCommandOutput, clearSudoPassword, if_neg hne, if_pos h]
  · rw [List.length_append, List.length_take]
    simp only [List.length_cons, List.length_nil]
    omega

/-- C6 witness: three collected lines against a limit of two finalize to the
first two lines plus the marker. -/
theorem c6_witness :
    (finalizeCommandOutput (initExecutor none 2) "ls".toList
        [['a'], ['b'], ['c']] [] [] 0).2.history =
      (initExecutor none 2).history ++ [⟨"ls".toList,
        List.intercalate "\n".toList
          ((combinedLines [['a'], ['b'], ['c']] []).take 2 ++ [truncMarker]),
        errorStrOf []⟩] :=
  (c6_truncation (initExecutor none 2) "ls".toList [['a'], ['b'], ['c']] [] []
    0 (by decide)).1

/-- C3: for a `sudo`-prefixed command with a truthy cached credential, the
command string handed to `create_subprocess_shell` is exactly
`echo <pwd> | sudo -S <command-minus-prefix>`: the credential is piped by
the `echo` producer stage into `sudo`'s non-interactive stdin flag `-S`,
and the argument text following `sudo -S` — the visible argument list of
the spawned privileged command — is the original command tail, which never
contains the secret as long as the original command does not. -/
theorem c3_secret_confined (env : ExecEnv) (st : ExecutorState)
    (pwd command : List Char)
    (hpwd : st.sudo_password = some pwd) (hne : pwd ≠ [])
    (hs : "sudo".toList <+: command) (hinf : ¬ pwd <:+: command) :
    (executeCommand env st command).1.spawnedCommand =
      some (sudoRewrite pwd command) ∧
    sudoRewrite pwd command =
      "echo ".toList ++ pwd ++ " | sudo -S ".toList ++ command.drop 5 ∧
    ¬ pwd <:+: command.drop 5 := by
  have hc : command ≠ [] := by
    intro hh
    subst hh
    rw [List.prefix_nil] at hs
    exact absurd hs (by decide)
  have ht : truthy (some pwd) = true := by
    simp [truthy, hne]
  refine ⟨?_, by simp [sudoRewrite], ?_⟩
  · unfold executeCommand
    simp only [if_neg hc, if_pos hs, hpwd, ht, not_true, Bool.not_true,
      Bool.false_eq_true, if_false, Option.getD_some]
    exact spawnAndProcess_spawnedCommand env st _
  · intro hq
    exact hinf (hq.trans (List.drop_suffix 5 command).isInfix)

/-- C3 witness: with cached credential `hunter2`, `sudo ls` spawns the
piped rewrite and the sudo-stage argument tail is secret-free. -/
theorem c3_witness :
    (executeCommand envBase (initExecutor (some ⟨some "hunter2".toList⟩) 500)
        "sudo ls".toList).1.spawnedCommand =
      some (sudoRewrite "hunter2".toList "sudo ls".toList) ∧
    ¬ "hunter2".toList <:+: "sudo ls".toList.drop 5 := by
  have h := c3_secret_confined envBase
    (initExecutor (some ⟨some "hunter2".toList⟩) 500)
    "hunter2".toList "sudo ls".toList rfl (by decide) (by decide) (by decide)
  exact ⟨h.1, h.2.2⟩

/-- C8: for a non-empty command on which the human clears the editable
confirmation field (the collaborator returns the empty string), `start`
returns `(None, None)` and the executor state — in particular the
`history` sequence — is completely unchanged: no record is appended. -/
theorem c8_decline_confirmation (env : ExecEnv) (st : ExecutorState)
    (c : List Char) (hc : c ≠ []) (hd : env.confirmInput = []) :
    (startExecutor env st (some c)).1 = .ok (none, none) ∧
    (startExecutor env st (some c)).2 = st := by
  constructor <;> simp [startExecutor, confirmExecuteCommand, hc, hd]

/-- C8 witness: declining a concrete `ls` leaves the fresh state intact. -/
theorem c8_witness :
    (startExecutor envBase (initExecutor none 500) (some "ls".toList)).1 =
      .ok (none, none) ∧
    (startExecutor envBase (initExecutor none 500) (some "ls".toList)).2 =
      initExecutor none 500 :=
  c8_decline_confirmation envBase (initExecutor none 500) "ls".toList
    (by decide) rfl

/-- C10: `_clear_sudo_password` nulls only the executor's own
`sudo_password` field — `history` and the UI collaborator's `pswd` copy are
untouched — and a subsequent `_get_sudo_password` on the same instance
re-acquires the credential from the truthy `ui.pswd` without prompting the
user (`.ok false` = no prompt happened). -/
theorem c10_clear_scope (env : ExecEnv) (st : ExecutorState)
    (u : UIState) (p : List Char)
    (hui : st.ui = some u) (hp : u.pswd = some p) (hne : p ≠ []) :
    (clearSudoPassword st).sudo_password = none ∧
    (clearSudoPassword st).ui = st.ui ∧
    (clearSudoPassword st).history = st.history ∧
    (getSudoPassword env (clearSudoPassword st)).1 = .ok false ∧
    (getSudoPassword env (clearSudoPassword st)).2.sudo_password = some p := by
  refine ⟨rfl, rfl, rfl, ?_, ?_⟩ <;>
    simp [getSudoPassword, clearSudoPassword, hui, hp, truthy, hne]

/-- C10 witness: after clearing, the concrete credential `pw` is re-read
from `ui.pswd` without prompting. -/
theorem c10_witness :
    (getSudoPassword envBase (clearSudoPassword
        (initExecutor (some ⟨some "pw".toList⟩) 500))).1 = .ok false ∧
    (getSudoPassword envBase (clearSudoPassword
        (initExecutor (some ⟨some "pw".toList⟩) 500))).2.sudo_password =
      some "pw".toList := by
  have h := c10_clear_scope envBase
    (initExecutor (some ⟨some "pw".toList⟩) 500)
    ⟨some "pw".toList⟩ "pw".toList rfl rfl (by decide)
  exact ⟨h.2.2.2.1, h.2.2.2.2⟩
